import Mathlib

/-!
Shallow embedding of the core of the opponent framework backend
(`backend/src/opponent`): the RAG retrieval engine (`rag/retrieval.py`),
the chunking strategy (`rag/vectorstore.py`), and the three agent
pipelines (`agents/noma_note_creator.py`, `agents/note_linker.py`,
`agents/opponent_agent.py`), together with theorems settling the
specification's claims about them.

Modelling conventions:
* Python dicts produced by `VectorStore.search` always carry exactly the
  keys `content`, `metadata`, `similarity_score` (and `rerank_score` once
  attached by reranking); they are embedded as the structure
  `SearchResult`, and Python's `dict.get` on them as `SearchResult.get`.
* Numeric scores are embedded as integers: no verified claim depends on
  fractional score values (the rerank prompt requests integer scores
  0-10).
* Fallible code returns `Except PyErr`; the constructors of `PyErr`
  name the Python exception classes that can be raised.
* External calls (the text-generation capability and the similarity
  index) are parameters of the embedded functions: a search oracle
  `Nat → List SearchResult` mapping the requested `top_k` to the index's
  response, and plain values for generation outputs.
-/

namespace OpponentFramework

/-- Python exception kinds raised by the embedded code. -/
inductive PyErr where
  | typeError
  | valueError
  | notImplementedError
deriving DecidableEq, Repr

/-- Metadata attached to an indexed chunk by `VectorStore._parse_markdown`
(`vectorstore.py` lines 45-58): `path`, `title` and the comma-joined `tags`.
The two bookkeeping keys `chunk_index` / `total_chunks` added at indexing
time (lines 123-127) are read by no claim and are omitted. -/
structure NoteMeta where
  path : String
  title : String
  tags : String
deriving DecidableEq, Repr

/-- One entry of the list returned by `VectorStore.search`
(`vectorstore.py` lines 193-205): a dict with keys `content`, `metadata`
and `similarity_score`; reranking (`retrieval.py` line 165) may later add
a `rerank_score` key, embedded as the `Option`. -/
structure SearchResult where
  content : String
  metadata : NoteMeta
  similarity_score : Int
  rerank_score : Option Int := none
deriving DecidableEq, Repr

/-- Python values that flow through the note-linker's dict lookups. The
`emptyDict` constructor stands for the literal `{}` default in
`result.get("metadata", {})`. -/
inductive PyVal where
  | str (s : String)
  | num (n : Int)
  | metaV (m : NoteMeta)
  | emptyDict
deriving DecidableEq, Repr

/-- Python `dict.get(key, dflt)` on a search-result dict. The dict holds
exactly the keys `content`, `metadata`, `similarity_score`, plus
`rerank_score` when reranking attached one; every other key (in
particular `snippet` and `score`, which `NoteLinker.find_links` asks
for) yields the supplied default. -/
def SearchResult.get (r : SearchResult) (key : String) (dflt : PyVal) : PyVal :=
  if key = "content" then .str r.content
  else if key = "metadata" then .metaV r.metadata
  else if key = "similarity_score" then .num r.similarity_score
  else if key = "rerank_score" then
    match r.rerank_score with
    | some s => .num s
    | none => dflt
  else dflt

/-- Python `dict.get(key, dflt)` on a metadata dict (keys `path`,
`title`, `tags`, from `_parse_markdown`). -/
def NoteMeta.get (m : NoteMeta) (key : String) (dflt : PyVal) : PyVal :=
  if key = "path" then .str m.path
  else if key = "title" then .str m.title
  else if key = "tags" then .str m.tags
  else dflt

/-- Outcome of `json.loads(response.content.strip())` inside
`Retriever._rerank_results` (`retrieval.py` lines 159-174):
`malformed` when `json.loads` raises `JSONDecodeError`/`ValueError`
(both caught by the `except` clause), `arr` when the payload parses as a
JSON array of numbers, and `scalar` when it parses as a non-iterable
JSON value (a number), which makes the subsequent `zip` raise an
uncaught `TypeError`. -/
inductive ScorePayload where
  | malformed
  | arr (scores : List Int)
  | scalar
deriving DecidableEq, Repr

/-- Sort key used by `_rerank_results`: `lambda x: x['rerank_score']`.
On the scored dicts the key is always present; `getD 0` is its value. -/
def scoreKey (r : SearchResult) : Int :=
  r.rerank_score.getD 0

/-- Ordering relation of the descending, stable sort
`scored_results.sort(key=lambda x: x['rerank_score'], reverse=True)`:
`a` may precede `b` iff `a`'s score is at least `b`'s. -/
def rerankLE (a b : SearchResult) : Prop :=
  scoreKey b ≤ scoreKey a

instance : DecidableRel rerankLE := fun _ _ => Int.decLe _ _

instance : IsTotal SearchResult rerankLE :=
  ⟨fun a b => (le_total (scoreKey b) (scoreKey a)).imp id id⟩

instance : IsTrans SearchResult rerankLE :=
  ⟨fun _ _ _ hab hbc => le_trans hbc hab⟩

/-- The comprehension `[{**result, 'rerank_score': score} for result,
score in zip(results, scores)]` (`retrieval.py` lines 164-167): attach
scores pairwise; `zip` truncates to the shorter list. -/
def attachScores (results : List SearchResult) (scores : List Int) : List SearchResult :=
  List.zipWith (fun r s => { r with rerank_score := some s }) results scores

/-- CPython's `list.sort` is a stable sort, and with `reverse=True` ties
still keep their original relative order; a stable descending sort is
exactly insertion sort under `rerankLE` (insert strictly before the
first element with a smaller score, after equal ones). -/
def pySortByRerankScore (l : List SearchResult) : List SearchResult :=
  l.insertionSort rerankLE

/-- `Retriever._rerank_results` (`retrieval.py` lines 136-175) after the
prompt is sent: parse the score payload; on a parse error
(`JSONDecodeError`/`ValueError`, caught) return the results unchanged;
on a JSON array attach the scores pairwise (`zip` — no length check) and
stable-sort descending; on a non-iterable JSON value the `zip` call
raises `TypeError`, which the `except` clause does not catch. -/
def rerank_results (results : List SearchResult) (payload : ScorePayload) :
    Except PyErr (List SearchResult) :=
  match payload with
  | .malformed => .ok results
  | .arr scores => .ok (pySortByRerankScore (attachScores results scores))
  | .scalar => .error .typeError

/-- Loop of `Retriever.retrieve_for_linking` (`retrieval.py` lines
53-69): scan the search results, skip any whose `metadata` path is
already seen, collect the rest, and break as soon as the collected
count reaches `top_k`. The counter is carried as the remaining budget
`k = top_k - collected`; the Python break test `len(filtered_results)
>= self.top_k` after an append is `k ≤ 1` before it. -/
def linkLoop (seen : List String) (k : Nat) : List SearchResult → List SearchResult
  | [] => []
  | r :: rs =>
    if r.metadata.path ∈ seen then linkLoop seen k rs
    else if k ≤ 1 then [r]
    else r :: linkLoop (r.metadata.path :: seen) (k - 1) rs

/-- `Retriever.retrieve_for_linking` (`retrieval.py` lines 25-69) after
the concept-extraction call: query the index for `top_k * 2` candidates
and filter with `seen_paths = {exclude_path}`. The index is abstracted
as `search`, mapping the requested result count to the returned list. -/
def retrieve_for_linking (search : Nat → List SearchResult)
    (exclude_path : String) (top_k : Nat) : List SearchResult :=
  linkLoop [exclude_path] top_k (search (top_k * 2))

/-- Number of distinct metadata paths occurring in the list and not in
`seen`: the count of candidates eligible for collection by `linkLoop`. -/
def eligibleCount (seen : List String) : List SearchResult → Nat
  | [] => 0
  | r :: rs =>
    if r.metadata.path ∈ seen then eligibleCount seen rs
    else eligibleCount (r.metadata.path :: seen) rs + 1

/-- Merge loop of `Retriever.retrieve_for_opposition` (`retrieval.py`
lines 99-104): insert results into a dict keyed by
`result['metadata']['path']`, first occurrence winning;
`list(combined_results.values())` is the kept results in first-seen
order, which this loop produces directly. -/
def mergeLoop (seen : List String) : List SearchResult → List SearchResult
  | [] => []
  | r :: rs =>
    if r.metadata.path ∈ seen then mergeLoop seen rs
    else r :: mergeLoop (r.metadata.path :: seen) rs

/-- Path-keyed deduplication of `retrieve_for_opposition`, first
occurrence winning. -/
def mergeByPath (l : List SearchResult) : List SearchResult :=
  mergeLoop [] l

/-- `Retriever.retrieve_for_opposition` (`retrieval.py` lines 71-113):
the two strategy queries are abstracted as their result lists
(`opponent_tagged`, `general_results`); merge them by path with the
tagged results first, and if the merge is non-empty rerank and truncate
to `self.top_k`, else return the empty list. -/
def retrieve_for_opposition (opponent_tagged general_results : List SearchResult)
    (payload : ScorePayload) (top_k : Nat) : Except PyErr (List SearchResult) :=
  let combined := mergeByPath (opponent_tagged ++ general_results)
  if combined = [] then .ok []
  else (rerank_results combined payload).map (fun l => l.take top_k)

/-- Keyword parameters accepted by `VectorStore.search`
(`vectorstore.py` lines 157-162): `query`, `top_k`, `filter_metadata`. -/
def searchKeywords : List String :=
  ["query", "top_k", "filter_metadata"]

/-- Keyword arguments `Retriever.retrieve_by_tag` passes to
`VectorStore.search` (`retrieval.py` lines 128-132) — note the
misspelling `filder_metadata` in the source. -/
def retrieveByTagCallKeywords : List String :=
  ["query", "top_k", "filder_metadata"]

/-- A Python keyword call of `VectorStore.search`: an unexpected keyword
argument raises `TypeError` at the call itself; otherwise the index
answers with at most `n_results` results (abstracted as
`indexResults.take n_results`). -/
def searchKwCall (kwargs : List String) (n_results : Nat)
    (indexResults : List SearchResult) : Except PyErr (List SearchResult) :=
  if kwargs.all (fun kw => searchKeywords.contains kw) then
    .ok (indexResults.take n_results)
  else .error .typeError

/-- Python `top_k or self.top_k` (`retrieval.py` line 126): `or` falls
through on falsy values, so both `None` and `0` select the default. -/
def pyOrNat (x : Option Nat) (dflt : Nat) : Nat :=
  match x with
  | some n => if n = 0 then dflt else n
  | none => dflt

/-- `Retriever.retrieve_by_tag` (`retrieval.py` lines 116-134): compute
`k`, call `self.vectorstore.search(query="", top_k=k*2,
filder_metadata=...)`, then `raise NotImplementedError`. The misspelled
keyword makes the search call itself raise `TypeError`, so the
`NotImplementedError` line is unreachable. -/
def retrieve_by_tag (tag : String) (top_k : Option Nat) (self_top_k : Nat)
    (indexResults : List SearchResult) : Except PyErr (List SearchResult) :=
  let k := pyOrNat top_k self_top_k
  match searchKwCall retrieveByTagCallKeywords (k * 2) indexResults with
  | .error e => .error e
  | .ok _ => .error .notImplementedError

/-- A paragraph, as the list of its whitespace-separated words: in the
source a paragraph is a stripped non-empty piece of `content.split("\n\n")`
and its length is `len(paragraph.split())`. -/
abbrev Para := List String

/-- A chunk, as the list of paragraphs joined by `"\n\n".join(...)`;
since paragraphs are stripped and joined with blank lines, the chunk's
`split()` word count is the sum of its paragraphs' word counts. -/
abbrev Chunk := List Para

/-- Word count of a chunk: `len("\n\n".join(chunk).split())`. -/
def wordCount (c : Chunk) : Nat :=
  (c.map List.length).sum

/-- Accumulation loop of `VectorStore._chunk_document` (`vectorstore.py`
lines 74-88). When adding the next paragraph would push the running
count over `chunk_size` and the current chunk is non-empty, the current
chunk is closed, the new chunk is seeded with the closed chunk's last
paragraph (the overlap), and the triggering paragraph is appended
without any further size check. -/
def chunkLoop (size : Nat) :
    List Chunk → List Para → Nat → List Para → List Chunk
  | chunks, cur, _, [] => if cur.isEmpty then chunks else chunks ++ [cur]
  | chunks, cur, curLen, p :: ps =>
    if size < curLen + p.length ∧ ¬ cur.isEmpty then
      let kept := cur.getLastD []
      chunkLoop size (chunks ++ [cur]) [kept, p] (kept.length + p.length) ps
    else
      chunkLoop size chunks (cur ++ [p]) (curLen + p.length) ps

/-- `VectorStore._chunk_document` (`vectorstore.py` lines 60-91), over
the already split-and-stripped paragraph list. The source's final
`return chunks if chunks else [content]` applies only to whitespace-only
content (no paragraphs), where the single fallback chunk holds zero
words; it is rendered here as the zero-word chunk list `[paragraphs]`. -/
def chunk_document (chunk_size : Nat) (paragraphs : List Para) : List Chunk :=
  let chunks := chunkLoop chunk_size [] [] 0 paragraphs
  if chunks.isEmpty then [paragraphs] else chunks

/-- `MAX_CHARS_REASON` (`note_linker.py` line 7). -/
def MAX_CHARS_REASON : Nat := 200

/-- One entry of `suggested_links` built by `NoteLinker.find_links`
(`note_linker.py` lines 86-91). -/
structure SuggestedLink where
  path : PyVal
  title : PyVal
  reason : PyVal
  score : PyVal
deriving DecidableEq, Repr

/-- Python `metadata.get(key, dflt)` where `metadata = result.get("metadata",
{})`: either the metadata dict of the result or the `{}` default, on
which every `get` yields the default. (A non-dict value would raise
`AttributeError`, but `result.get("metadata", ...)` only ever produces a
dict here.) -/
def pyGetMeta (v : PyVal) (key : String) (dflt : PyVal) : PyVal :=
  match v with
  | .metaV m => m.get key dflt
  | _ => dflt

/-- Python string slicing `v[:n]` as used on the snippet default. -/
def pyStrSlice (v : PyVal) (n : Nat) : PyVal :=
  match v with
  | .str s => .str (s.take n)
  | v => v

/-- `NoteLinker.find_links` (`note_linker.py` lines 75-94) after the
retrieval call: format `results[:max_links]` into suggested links,
reading `result.get("snippet", "")[:MAX_CHARS_REASON]` for the reason
and `result.get("score", 0.0)` for the score. -/
def find_links (results : List SearchResult) (max_links : Nat) : List SuggestedLink :=
  (results.take max_links).map fun result =>
    { path := pyGetMeta (result.get "metadata" .emptyDict) "path" (.str "")
      title := pyGetMeta (result.get "metadata" .emptyDict) "title" (.str "Untitled")
      reason := pyStrSlice (result.get "snippet" (.str "")) MAX_CHARS_REASON
      score := result.get "score" (.num 0) }

/-- A resource produced by the structured `Resource` schema
(`structs/note.py`): title, optional url, reason. -/
structure Resource where
  title : String
  url : Option String
  reason : String
deriving DecidableEq, Repr

/-- State record of the NoMa note-synthesis workflow (`NoMaState`,
`noma_note_creator.py` lines 11-43). For `resources` the outer `Option`
distinguishes a dict without the key (`none`) from a key explicitly
present (`some`); the inner `Option` is the Python value, `None` or a
list. -/
structure NoMaState where
  interesting : String
  reminds_me : String
  similar_because : String
  different_because : String
  important_because : String
  has_internet : Bool
  synthesized_note : Option String := none
  note_title : Option String := none
  topic_tags : Option (List String) := none
  resources : Option (Option (List Resource)) := none
  final_output : Option String := none
  output_file_name : Option String := none
deriving DecidableEq, Repr

/-- Outputs of the text-generation capability consumed by one NoMa run:
the synthesized note, the title, the tag list, and the structured
resource list. -/
structure NomaOracle where
  note : String
  title : String
  tags : List String
  resources : List Resource
deriving DecidableEq, Repr

/-- `NomaNoteCreator.validate_responses` (`noma_note_creator.py` lines
100-109): raise `ValueError` if any of the five NoMa responses is
missing or empty. -/
def validate_responses (st : NoMaState) : Except PyErr NoMaState :=
  if st.interesting = "" then .error .valueError
  else if st.reminds_me = "" then .error .valueError
  else if st.similar_because = "" then .error .valueError
  else if st.different_because = "" then .error .valueError
  else if st.important_because = "" then .error .valueError
  else .ok st

/-- `NomaNoteCreator.generate_note` (lines 111-123): one structured
generation call, writing `synthesized_note`. -/
def generate_note (o : NomaOracle) (st : NoMaState) : NoMaState :=
  { st with synthesized_note := some o.note }

/-- `NomaNoteCreator.generate_title` (lines 125-134). -/
def generate_title (o : NomaOracle) (st : NoMaState) : NoMaState :=
  { st with note_title := some o.title }

/-- Python `tag.lstrip('#t/')`: drop every leading character belonging
to the set of the three characters of the argument. -/
def pyLstrip (chars : List Char) (s : String) : String :=
  String.mk (s.toList.dropWhile (fun c => chars.contains c))

/-- `NomaNoteCreator.generate_topic_tags` (lines 136-146). -/
def generate_topic_tags (o : NomaOracle) (st : NoMaState) : NoMaState :=
  { st with topic_tags := some (o.tags.map (pyLstrip ['#', 't', '/'])) }

/-- `NomaNoteCreator.merge_metadata` (lines 207-211): if the state dict
has no `resources` key, set it explicitly to `None`. -/
def merge_metadata (st : NoMaState) : NoMaState :=
  match st.resources with
  | none => { st with resources := some none }
  | some _ => st

/-- `NomaNoteCreator.should_fetch_resources` (lines 199-205): the
conditional-edge routing function. -/
def should_fetch_resources (st : NoMaState) : String :=
  if st.has_internet then "fetch_resources" else "format_output"

/-- `NomaNoteCreator.fetch_resources` (lines 148-170): on no internet
set `resources` to `None`, otherwise one structured generation call. -/
def fetch_resources (o : NomaOracle) (st : NoMaState) : NoMaState :=
  if st.has_internet then { st with resources := some (some o.resources) }
  else { st with resources := some none }

/-- YAML special characters checked by `MDBuilder.generate_metadata`
(`misc/markdown_tools.py` line 45): colon, brackets, braces, comma,
double and single quote, ampersand, star, hash, question mark, pipe,
dash, angle brackets, equals, bang, percent, at, backslash. -/
def yamlSpecialChars : List Char :=
  ":[],&*#?|-<>=!%@".toList ++ ['"', Char.ofNat 39, Char.ofNat 92, Char.ofNat 123, Char.ofNat 125]

/-- The markdown builder dataclass (`misc/markdown_tools.py`): title,
tag list seeded with the source/context tags, and accumulated content. -/
structure MDBuilder where
  title : String := ""
  tags : List String := ["#s/opponent", "#c/selfstudy"]
  content : String := ""
deriving DecidableEq, Repr

/-- `MDBuilder.set_title`. -/
def MDBuilder.set_title (md : MDBuilder) (t : String) : MDBuilder :=
  { md with title := t }

/-- `MDBuilder.add_topic_tag`: prefix with `#c/` unless already
prefixed, and append if not present. -/
def MDBuilder.add_topic_tag (md : MDBuilder) (tag : String) : MDBuilder :=
  let tag := if tag.startsWith "#c/" then tag else "#c/" ++ tag
  if tag ∈ md.tags then md else { md with tags := md.tags ++ [tag] }

/-- `MDBuilder.add_heading`. -/
def MDBuilder.add_heading (md : MDBuilder) (heading : String) (level : Nat) : MDBuilder :=
  { md with content := md.content ++ "\n" ++ String.mk (List.replicate level '#')
      ++ " " ++ heading ++ "\n" }

/-- `MDBuilder.add_paragraph`. -/
def MDBuilder.add_paragraph (md : MDBuilder) (paragraph : String) : MDBuilder :=
  { md with content := md.content ++ "\n" ++ paragraph ++ "\n" }

/-- `MDBuilder.generate_metadata`: prepend the frontmatter, quoting the
title when it holds a YAML special character. (The source asserts a
non-empty title; the one caller always supplies one.) -/
def MDBuilder.generate_metadata (md : MDBuilder) : MDBuilder :=
  let t := if md.title.toList.any (fun c => yamlSpecialChars.contains c)
    then "\"" ++ md.title ++ "\"" else md.title
  { md with content := "---\n" ++ "title: " ++ t ++ "\n" ++ "---\n" ++ md.content }

/-- `MDBuilder.build`. -/
def MDBuilder.build (md : MDBuilder) : String :=
  md.generate_metadata.content

/-- Python `str` of an optional string: `str(None)` is the string
`"None"`. -/
def pyStrOfOpt (x : Option String) : String :=
  match x with
  | some s => s
  | none => "None"

/-- `NomaNoteCreator.format_final_output` (`noma_note_creator.py` lines
173-197): build the markdown output; `state["resources"] or []` treats
both the explicit `None` and an empty list as no resources. -/
def format_final_output (st : NoMaState) : NoMaState :=
  let t0 := (pyStrOfOpt st.note_title).trim
  let title := if t0 = "" then "Untitled Note" else t0
  let fname := (title.toLower.replace " " "_") ++ ".md"
  let md := MDBuilder.set_title {} title
  let md := (st.topic_tags.getD []).foldl (fun m tag => m.add_topic_tag tag) md
  let md := md.add_paragraph (st.synthesized_note.getD "")
  let resources := (st.resources.getD none).getD []
  let md :=
    if resources.length > 0 then
      (resources.foldl
        (fun m res => m.add_paragraph
          ("- [" ++ res.title ++ "](" ++ pyStrOfOpt res.url ++ "): " ++ res.reason))
        (md.add_heading "Resources" 1))
    else md
  { st with output_file_name := some fname, final_output := some md.build }

/-- One run of the compiled NoMa graph (`noma_note_creator.py` lines
61-97): validate, synthesize, the title/tags fan-out (its two branches
write disjoint fields, so the fan-in state is order-independent and is
taken here in registration order), merge, then the conditional edge
routed by `should_fetch_resources`, then format. Returns the final
state together with the list of executed node names. -/
def runNoma (o : NomaOracle) (st0 : NoMaState) : Except PyErr (NoMaState × List String) :=
  match validate_responses st0 with
  | .error e => .error e
  | .ok st1 =>
    let st2 := generate_note o st1
    let st3 := generate_title o st2
    let st4 := generate_topic_tags o st3
    let st5 := merge_metadata st4
    if should_fetch_resources st5 = "fetch_resources" then
      let st6 := fetch_resources o st5
      let st7 := format_final_output st6
      .ok (st7, ["validate_responses", "generate_note", "generate_title",
        "generate_topic_tags", "merge_metadata", "fetch_resources", "format_output"])
    else
      let st7 := format_final_output st5
      .ok (st7, ["validate_responses", "generate_note", "generate_title",
        "generate_topic_tags", "merge_metadata", "format_output"])

/-- One entry of `counter_evidence` built by
`OpponentAgent.retrieve_counter_evidence` (`opponent_agent.py` lines
95-103). -/
structure Evidence where
  content : String
  source : String
  path : String
  score : Int
deriving DecidableEq, Repr

/-- Formatting of one retrieval result into evidence (`opponent_agent.py`
lines 96-103): `result.get("content", "")`, `metadata.get("title",
"Unknown")`, `metadata.get("path", "")` are the always-present dict
fields; `result.get("rerank_score", result.get("score", 0.0))` is the
rerank score when attached, else the inner default `0.0` (search
results carry no `score` key). -/
def toEvidence (r : SearchResult) : Evidence :=
  { content := r.content
    source := r.metadata.title
    path := r.metadata.path
    score := r.rerank_score.getD 0 }

/-- State record of the opposition workflow (`OpponentState`,
`opponent_agent.py` lines 11-33). -/
structure OpponentState where
  note_content : String
  note_path : Option String := none
  context : Option String := none
  max_evidence : Nat
  counter_evidence : Option (List Evidence) := none
  detailed_analysis : Option String := none
  summary : Option String := none
deriving DecidableEq, Repr

/-- `OpponentAgent.retrieve_counter_evidence` (lines 85-106) after the
retrieval call, abstracted over the retrieval's result list: format
`results[:max_evidence]` and set `counter_evidence`. -/
def retrieve_counter_evidence (results : List SearchResult) (st : OpponentState) :
    OpponentState :=
  { st with counter_evidence := some ((results.take st.max_evidence).map toEvidence) }

/-- The accumulation `counter_evidence_text += f"\n[Source {idx}:
{source}]\n{content}\n"` over `enumerate(..., start=1)`
(`opponent_agent.py` lines 111-114). -/
def counterEvidenceText : List Evidence → Nat → String
  | [], _ => ""
  | e :: es, idx =>
    "\n[Source " ++ toString idx ++ ": " ++ e.source ++ "]\n" ++ e.content ++ "\n"
      ++ counterEvidenceText es (idx + 1)

/-- The fixed message substituted when no counter-evidence was found
(`opponent_agent.py` lines 117-120). -/
def noCounterEvidenceMessage : String :=
  "No counter-evidence found in your knowledge base. The claim may be novel, or your vault lacks opposing perspectives."

/-- `OpponentAgent.analyze_arguments` (lines 108-129): iterate the
evidence into a text block; when the text is empty substitute the fixed
message without calling the model, else call the model
(`analysisResponse` abstracts its reply). Iterating a `counter_evidence`
that is still `None` would raise `TypeError`; in the compiled graph the
retrieval node has always set it to a list first. -/
def analyze_arguments (analysisResponse : String) (st : OpponentState) :
    Except PyErr OpponentState :=
  match st.counter_evidence with
  | none => .error .typeError
  | some evs =>
    let text := counterEvidenceText evs 1
    if text = "" then .ok { st with detailed_analysis := some noCounterEvidenceMessage }
    else .ok { st with detailed_analysis := some analysisResponse }

/-- `OpponentAgent.summarize_opposition` (lines 131-144): when
`detailed_analysis` is falsy (`None` or empty) substitute the fixed
summary, else call the model (`summaryResponse` abstracts its reply). -/
def summarize_opposition (summaryResponse : String) (st : OpponentState) : OpponentState :=
  match st.detailed_analysis with
  | none => { st with summary := some "No analysis available" }
  | some a =>
    if a = "" then { st with summary := some "No analysis available" }
    else { st with summary := some summaryResponse }

/-! Helper lemmas about the link-retrieval filter loop. -/

theorem linkLoop_mem_input {x : SearchResult} :
    ∀ (l : List SearchResult) (seen : List String) (k : Nat),
      x ∈ linkLoop seen k l → x ∈ l := by
  intro l
  induction l with
  | nil => intro seen k h; simp [linkLoop] at h
  | cons r rs ih =>
    intro seen k h
    by_cases hs : r.metadata.path ∈ seen
    · simp only [linkLoop, if_pos hs] at h
      exact List.mem_cons_of_mem _ (ih _ _ h)
    · by_cases hk : k ≤ 1
      · simp only [linkLoop, if_neg hs, if_pos hk, List.mem_singleton] at h
        simp [h]
      · simp only [linkLoop, if_neg hs, if_neg hk, List.mem_cons] at h
        rcases h with h | h
        · simp [h]
        · exact List.mem_cons_of_mem _ (ih _ _ h)

theorem linkLoop_path_not_seen {x : SearchResult} :
    ∀ (l : List SearchResult) (seen : List String) (k : Nat),
      x ∈ linkLoop seen k l → x.metadata.path ∉ seen := by
  intro l
  induction l with
  | nil => intro seen k h; simp [linkLoop] at h
  | cons r rs ih =>
    intro seen k h
    by_cases hs : r.metadata.path ∈ seen
    · simp only [linkLoop, if_pos hs] at h
      exact ih _ _ h
    · by_cases hk : k ≤ 1
      · simp only [linkLoop, if_neg hs, if_pos hk, List.mem_singleton] at h
        subst h; exact hs
      · simp only [linkLoop, if_neg hs, if_neg hk, List.mem_cons] at h
        rcases h with h | h
        · subst h; exact hs
        · intro hmem
          exact ih _ _ h (List.mem_cons_of_mem _ hmem)

theorem linkLoop_pairwise :
    ∀ (l : List SearchResult) (seen : List String) (k : Nat),
      (linkLoop seen k l).Pairwise (fun a b => a.metadata.path ≠ b.metadata.path) := by
  intro l
  induction l with
  | nil => intro seen k; simp [linkLoop]
  | cons r rs ih =>
    intro seen k
    by_cases hs : r.metadata.path ∈ seen
    · simpa only [linkLoop, if_pos hs] using ih seen k
    · by_cases hk : k ≤ 1
      · simp [linkLoop, if_neg hs, if_pos hk]
      · simp only [linkLoop, if_neg hs, if_neg hk]
        refine List.Pairwise.cons ?_ (ih _ _)
        intro y hy
        have := linkLoop_path_not_seen _ _ _ hy
        intro hEq
        exact this (hEq ▸ List.mem_cons_self _ _)

theorem linkLoop_length :
    ∀ (l : List SearchResult) (seen : List String) (k : Nat), 1 ≤ k →
      (linkLoop seen k l).length = min k (eligibleCount seen l) := by
  intro l
  induction l with
  | nil => intro seen k hk; simp [linkLoop, eligibleCount]
  | cons r rs ih =>
    intro seen k hk
    by_cases hs : r.metadata.path ∈ seen
    · simp only [linkLoop, if_pos hs, eligibleCount]
      exact ih seen k hk
    · by_cases hk1 : k ≤ 1
      · have hk' : k = 1 := le_antisymm hk1 hk
        subst hk'
        simp only [linkLoop, if_neg hs, if_pos (le_refl 1), eligibleCount,
          List.length_singleton]
        omega
      · simp only [linkLoop, if_neg hs, if_neg hk1, eligibleCount, List.length_cons]
        rw [ih _ (k - 1) (by omega)]
        omega

/-! Helper lemmas about the opposition merge loop. -/

theorem mergeLoop_sublist :
    ∀ (l : List SearchResult) (seen : List String), List.Sublist (mergeLoop seen l) l := by
  intro l
  induction l with
  | nil => intro seen; simp [mergeLoop]
  | cons r rs ih =>
    intro seen
    by_cases hs : r.metadata.path ∈ seen
    · simp only [mergeLoop, if_pos hs]
      exact (ih seen).cons r
    · simp only [mergeLoop, if_neg hs]
      exact (ih _).cons₂ r

theorem mergeLoop_path_not_seen {x : SearchResult} :
    ∀ (l : List SearchResult) (seen : List String),
      x ∈ mergeLoop seen l → x.metadata.path ∉ seen := by
  intro l
  induction l with
  | nil => intro seen h; simp [mergeLoop] at h
  | cons r rs ih =>
    intro seen h
    by_cases hs : r.metadata.path ∈ seen
    · simp only [mergeLoop, if_pos hs] at h
      exact ih _ h
    · simp only [mergeLoop, if_neg hs, List.mem_cons] at h
      rcases h with h | h
      · subst h; exact hs
      · intro hmem
        exact ih _ h (List.mem_cons_of_mem _ hmem)

theorem mergeLoop_pairwise :
    ∀ (l : List SearchResult) (seen : List String),
      (mergeLoop seen l).Pairwise (fun a b => a.metadata.path ≠ b.metadata.path) := by
  intro l
  induction l with
  | nil => intro seen; simp [mergeLoop]
  | cons r rs ih =>
    intro seen
    by_cases hs : r.metadata.path ∈ seen
    · simpa only [mergeLoop, if_pos hs] using ih seen
    · simp only [mergeLoop, if_neg hs]
      refine List.Pairwise.cons ?_ (ih _)
      intro y hy
      have := mergeLoop_path_not_seen _ _ hy
      intro hEq
      exact this (hEq ▸ List.mem_cons_self _ _)

theorem mergeLoop_first_occurrence {r : SearchResult} :
    ∀ (l : List SearchResult) (seen : List String), r ∈ mergeLoop seen l →
      l.find? (fun x => x.metadata.path == r.metadata.path) = some r := by
  intro l
  induction l with
  | nil => intro seen h; simp [mergeLoop] at h
  | cons y ys ih =>
    intro seen h
    by_cases hs : y.metadata.path ∈ seen
    · simp only [mergeLoop, if_pos hs] at h
      have hr := mergeLoop_path_not_seen _ _ h
      have hne : (y.metadata.path == r.metadata.path) = false := by
        simp only [beq_eq_false_iff_ne, ne_eq]
        intro hEq
        exact hr (hEq ▸ hs)
      rw [List.find?_cons, hne]
      exact ih _ h
    · simp only [mergeLoop, if_neg hs, List.mem_cons] at h
      rcases h with h | h
      · subst h
        rw [List.find?_cons, beq_self_eq_true]
      · have hr := mergeLoop_path_not_seen _ _ h
        have hne : (y.metadata.path == r.metadata.path) = false := by
          simp only [beq_eq_false_iff_ne, ne_eq]
          intro hEq
          exact hr (hEq ▸ List.mem_cons_self _ _)
        rw [List.find?_cons, hne]
        exact ih _ h

theorem mergeLoop_covers {x : SearchResult} :
    ∀ (l : List SearchResult) (seen : List String), x ∈ l →
      x.metadata.path ∉ seen →
      ∃ r ∈ mergeLoop seen l, r.metadata.path = x.metadata.path := by
  intro l
  induction l with
  | nil => intro seen h; simp at h
  | cons y ys ih =>
    intro seen h hx
    by_cases hs : y.metadata.path ∈ seen
    · simp only [mergeLoop, if_pos hs]
      rcases List.mem_cons.mp h with h | h
      · exact absurd (h ▸ hx) (by simp [hs])
      · exact ih _ h hx
    · simp only [mergeLoop, if_neg hs]
      rcases List.mem_cons.mp h with h | h
      · exact ⟨y, List.mem_cons_self _ _, by rw [h]⟩
      · by_cases hpy : x.metadata.path = y.metadata.path
        · exact ⟨y, List.mem_cons_self _ _, hpy.symm⟩
        · obtain ⟨r, hr, hrp⟩ := ih (y.metadata.path :: seen) h (by
            simp only [List.mem_cons]
            push_neg
            exact ⟨hpy, hx⟩)
          exact ⟨r, List.mem_cons_of_mem _ hr, hrp⟩

/-! Helper lemmas about the chunking loop. -/

theorem wordCount_append (a b : Chunk) : wordCount (a ++ b) = wordCount a + wordCount b := by
  simp [wordCount]

theorem chunkLoop_oversized (size : Nat) :
    ∀ (ps : List Para) (chunks : List Chunk) (cur : List Para) (curLen : Nat),
      curLen = wordCount cur →
      (∀ c ∈ chunks, size < wordCount c → c.length ≤ 2) →
      (2 < cur.length → wordCount cur ≤ size) →
      ∀ c ∈ chunkLoop size chunks cur curLen ps, size < wordCount c → c.length ≤ 2 := by
  intro ps
  induction ps with
  | nil =>
    intro chunks cur curLen hlen hchunks hcur c hc hsize
    by_cases he : cur.isEmpty
    · rw [chunkLoop, if_pos he] at hc
      exact hchunks c hc hsize
    · rw [chunkLoop, if_neg he] at hc
      rcases List.mem_append.mp hc with h | h
      · exact hchunks c h hsize
      · rw [List.mem_singleton] at h
        subst h
        by_contra h3
        exact absurd hsize (not_lt.mpr (hcur (by omega)))
  | cons p ps ih =>
    intro chunks cur curLen hlen hchunks hcur c hc hsize
    by_cases hcond : size < curLen + p.length ∧ ¬ cur.isEmpty
    · rw [chunkLoop, if_pos hcond] at hc
      refine ih _ _ _ ?_ ?_ ?_ c hc hsize
      · simp [wordCount]
      · intro d hd hdsize
        rcases List.mem_append.mp hd with h | h
        · exact hchunks d h hdsize
        · rw [List.mem_singleton] at h
          subst h
          by_contra h3
          exact absurd hdsize (not_lt.mpr (hcur (by omega)))
      · intro h3
        simp at h3
    · rw [chunkLoop, if_neg hcond] at hc
      refine ih _ _ _ ?_ hchunks ?_ c hc hsize
      · rw [wordCount_append, hlen]
        simp [wordCount]
      · intro h3
        have hne : ¬ cur.isEmpty := by
          simp only [List.length_append, List.length_singleton] at h3
          simp only [List.isEmpty_iff]
          intro hnil
          subst hnil
          simp at h3
        have hle : curLen + p.length ≤ size := by
          rcases not_and_or.mp hcond with h | h
          · omega
          · exact absurd hne (not_not.mpr (not_not.mp h))
        rw [wordCount_append, ← hlen]
        simpa [wordCount] using hle

theorem chunkLoop_eq_nil (size : Nat) :
    ∀ (ps : List Para) (chunks : List Chunk) (cur : List Para) (curLen : Nat),
      chunkLoop size chunks cur curLen ps = [] → chunks = [] ∧ cur = [] ∧ ps = [] := by
  intro ps
  induction ps with
  | nil =>
    intro chunks cur curLen h
    by_cases he : cur.isEmpty
    · rw [chunkLoop, if_pos he] at h
      exact ⟨h, List.isEmpty_iff.mp he, rfl⟩
    · rw [chunkLoop, if_neg he] at h
      simp at h
  | cons p ps ih =>
    intro chunks cur curLen h
    by_cases hcond : size < curLen + p.length ∧ ¬ cur.isEmpty
    · rw [chunkLoop, if_pos hcond] at h
      obtain ⟨-, hcur, -⟩ := ih _ _ _ h
      simp at hcur
    · rw [chunkLoop, if_neg hcond] at h
      obtain ⟨-, hcur, -⟩ := ih _ _ _ h
      simp at hcur

/-! Helper lemmas about the stable descending sort used by reranking. -/

theorem filter_insertionSort_rerank (s : Int) (L : List SearchResult) :
    (L.insertionSort rerankLE).filter (fun x => x.rerank_score == some s)
      = L.filter (fun x => x.rerank_score == some s) := by
  have hpair : (L.filter (fun x => x.rerank_score == some s)).Pairwise rerankLE := by
    refine List.pairwise_of_forall_mem_list ?_
    intro a ha b hb
    have ha' : a.rerank_score = some s := by
      simpa using (List.mem_filter.mp ha).2
    have hb' : b.rerank_score = some s := by
      simpa using (List.mem_filter.mp hb).2
    simp [rerankLE, scoreKey, ha', hb']
  have hsub : List.Sublist (L.filter (fun x => x.rerank_score == some s))
      (L.insertionSort rerankLE) :=
    List.sublist_insertionSort hpair (List.filter_sublist L)
  have hperm : List.Perm ((L.insertionSort rerankLE).filter (fun x => x.rerank_score == some s))
      (L.filter (fun x => x.rerank_score == some s)) :=
    (List.perm_insertionSort rerankLE L).filter _
  have hsub2 : List.Sublist (L.filter (fun x => x.rerank_score == some s))
      ((L.insertionSort rerankLE).filter (fun x => x.rerank_score == some s)) := by
    have := hsub.filter (fun x => x.rerank_score == some s)
    simpa [List.filter_filter] using this
  exact (hsub2.eq_of_length hperm.length_eq.symm).symm

/-! Helper lemma: a non-empty evidence list renders to a non-empty text. -/

theorem counterEvidenceText_cons_ne (e : Evidence) (es : List Evidence) (idx : Nat) :
    counterEvidenceText (e :: es) idx ≠ "" := by
  intro h
  have hl := congrArg String.length h
  have h9 : ("\n[Source " : String).length = 9 := by decide
  simp only [counterEvidenceText, String.length_append] at hl
  simp at hl
  omega

/-! Concrete sample data used by counterexamples and witnesses. -/

/-- Sample search result with path `a.md`. -/
def rAlpha : SearchResult :=
  { content := "alpha", metadata := { path := "a.md", title := "A", tags := "" },
    similarity_score := 1 }

/-- Sample search result with path `b.md`. -/
def rBeta : SearchResult :=
  { content := "beta", metadata := { path := "b.md", title := "B", tags := "" },
    similarity_score := 1 }

/-- Index stub answering every query with the single result `rAlpha`. -/
def searchStubA : Nat → List SearchResult := fun _ => [rAlpha]

/-- Index stub answering every query with `rAlpha` and `rBeta`. -/
def searchStubB : Nat → List SearchResult := fun _ => [rAlpha, rBeta]

/-- A six-word paragraph. -/
def pSix : Para := List.replicate 6 "w"

/-- Another six-word paragraph. -/
def qSix : Para := List.replicate 6 "v"

/-- A twelve-word paragraph. -/
def pTwelve : Para := List.replicate 12 "u"

/-! Claim theorems. -/

/-- Counterexample to C1: with two candidates and the score payload
`[5]` — a JSON array whose length 1 differs from the candidate count 2 —
`_rerank_results` does not return the candidates in their original order
without scores: the `zip` silently truncates to one scored candidate,
dropping the second candidate entirely. -/
theorem rerank_results_length_mismatch_counterexample :
    rerank_results [rAlpha, rBeta] (.arr [5])
        = .ok [{ rAlpha with rerank_score := some 5 }]
    ∧ rerank_results [rAlpha, rBeta] (.arr [5]) ≠ .ok [rAlpha, rBeta] := by
  constructor
  · rfl
  · intro h
    have h1 : rerank_results [rAlpha, rBeta] (.arr [5])
        = .ok [{ rAlpha with rerank_score := some 5 }] := rfl
    have h2 := Except.ok.inj (h1.symm.trans h)
    exact absurd h2 (by decide)

/-- C1 (amended): only a payload that fails JSON parsing triggers the
graceful fallback — the candidates come back in their original
pre-rerank order, unchanged and without error. A payload that parses as
a JSON array is never rejected for length: the scores are attached
pairwise and the output is truncated to the shorter of the two lists.
A payload that parses as a non-iterable JSON value raises an uncaught
`TypeError`. -/
theorem rerank_results_parse_failure_spec (results : List SearchResult) :
    rerank_results results .malformed = .ok results
    ∧ (∀ scores : List Int, ∃ out, rerank_results results (.arr scores) = .ok out
        ∧ out.length = min results.length scores.length)
    ∧ rerank_results results .scalar = .error .typeError := by
  refine ⟨rfl, ?_, rfl⟩
  intro scores
  refine ⟨_, rfl, ?_⟩
  simp [pySortByRerankScore, attachScores, List.length_insertionSort, List.length_zipWith]

/-- Counterexample to C2: with the retriever's limit `top_k = 0` and an
index returning one eligible candidate, `retrieve_for_linking` still
returns that one candidate — the break test `len(filtered_results) >=
self.top_k` runs only after the append — so its length exceeds the
limit. -/
theorem retrieve_for_linking_limit_zero_counterexample :
    retrieve_for_linking searchStubA "x.md" 0 = [rAlpha]
    ∧ ¬ ((retrieve_for_linking searchStubA "x.md" 0).length ≤ 0) := by
  constructor
  · rfl
  · decide

/-- C2 (amended): for every limit `top_k ≥ 1`, link retrieval queries
the index for `2 × top_k` candidates and returns a list drawn from
them in which no entry's path equals `exclude_path`, no two entries
share a path, the length is at most `top_k`, and when the queried
candidates contain at least `top_k` distinct paths different from
`exclude_path`, the length is exactly `top_k`. (For `top_k = 0` the
source still returns one candidate, see the counterexample.) -/
theorem retrieve_for_linking_spec (search : Nat → List SearchResult)
    (exclude_path : String) (top_k : Nat) (hk : 1 ≤ top_k) :
    (∀ r ∈ retrieve_for_linking search exclude_path top_k,
      r ∈ search (top_k * 2) ∧ r.metadata.path ≠ exclude_path)
    ∧ (retrieve_for_linking search exclude_path top_k).Pairwise
        (fun a b => a.metadata.path ≠ b.metadata.path)
    ∧ (retrieve_for_linking search exclude_path top_k).length ≤ top_k
    ∧ (top_k ≤ eligibleCount [exclude_path] (search (top_k * 2)) →
        (retrieve_for_linking search exclude_path top_k).length = top_k) := by
  refine ⟨?_, ?_, ?_, ?_⟩
  · intro r hr
    refine ⟨linkLoop_mem_input _ _ _ hr, ?_⟩
    have h := linkLoop_path_not_seen _ _ _ hr
    simpa using h
  · exact linkLoop_pairwise _ _ _
  · simp only [retrieve_for_linking]
    rw [linkLoop_length _ _ _ hk]
    omega
  · intro hle
    simp only [retrieve_for_linking]
    rw [linkLoop_length _ _ _ hk]
    omega

/-- Witness for C2's theorem at limit 1 with two eligible candidates. -/
theorem retrieve_for_linking_spec_witness :
    (1 : Nat) ≤ 1 ∧ (retrieve_for_linking searchStubB "x.md" 1).length = 1 :=
  ⟨le_refl 1,
    (retrieve_for_linking_spec searchStubB "x.md" 1 (le_refl 1)).2.2.2 (by decide)⟩

/-- C3: opposition retrieval merges the two strategies' result lists by
metadata path — the merged list is a sublist of the tag-filtered results
followed by the general results, has pairwise distinct paths, each of
its entries is the first occurrence of its path in that concatenation
(so tag-filtered candidates beat general ones), and every path occurring
in either strategy survives; when the merge is empty the retrieval
returns the empty list whatever the scoring payload (reranking is not
invoked), and otherwise it returns the reranked merge truncated to the
limit. -/
theorem retrieve_for_opposition_spec (tagged general : List SearchResult)
    (payload : ScorePayload) (top_k : Nat) :
    List.Sublist (mergeByPath (tagged ++ general)) (tagged ++ general)
    ∧ (mergeByPath (tagged ++ general)).Pairwise
        (fun a b => a.metadata.path ≠ b.metadata.path)
    ∧ (∀ r ∈ mergeByPath (tagged ++ general),
        (tagged ++ general).find? (fun x => x.metadata.path == r.metadata.path) = some r)
    ∧ (∀ x ∈ tagged ++ general, ∃ r ∈ mergeByPath (tagged ++ general),
        r.metadata.path = x.metadata.path)
    ∧ (mergeByPath (tagged ++ general) = [] →
        retrieve_for_opposition tagged general payload top_k = .ok [])
    ∧ (mergeByPath (tagged ++ general) ≠ [] →
        retrieve_for_opposition tagged general payload top_k
          = (rerank_results (mergeByPath (tagged ++ general)) payload).map
              (fun l => l.take top_k)) := by
  refine ⟨mergeLoop_sublist _ _, mergeLoop_pairwise _ _, ?_, ?_, ?_, ?_⟩
  · intro r hr
    exact mergeLoop_first_occurrence _ _ hr
  · intro x hx
    exact mergeLoop_covers _ _ hx (by simp)
  · intro hempty
    simp [retrieve_for_opposition, hempty]
  · intro hne
    simp [retrieve_for_opposition, hne]

/-- Witness for C3's theorem: two distinct-path candidates merge to
themselves and the retrieval equals the (fallback) rerank truncated. -/
theorem retrieve_for_opposition_spec_witness :
    mergeByPath ([rAlpha] ++ [rBeta]) ≠ []
    ∧ retrieve_for_opposition [rAlpha] [rBeta] .malformed 5 = .ok [rAlpha, rBeta] := by
  have h := (retrieve_for_opposition_spec [rAlpha] [rBeta] .malformed 5).2.2.2.2.2
  refine ⟨by decide, ?_⟩
  rw [h (by decide)]
  rfl

/-- Counterexample to C4: with `target_size = 10` and two six-word
paragraphs, the second chunk produced by `_chunk_document` is the
overlap paragraph together with the overflow-triggering paragraph — two
paragraphs totalling 12 words, exceeding the target although neither
paragraph alone does. -/
theorem chunk_document_overlap_counterexample :
    chunk_document 10 [pSix, qSix] = [[pSix], [pSix, qSix]]
    ∧ 10 < wordCount [pSix, qSix]
    ∧ [pSix, qSix].length ≠ 1 := by
  refine ⟨rfl, by decide, by decide⟩

/-- C4 (amended): every chunk produced by `_chunk_document` has word
count at most `target_size` unless it consists of at most two
paragraphs — a single oversized paragraph, or the overlap paragraph
carried from the previous chunk together with the paragraph whose
addition triggered the overflow. -/
theorem chunk_document_oversized_spec (size : Nat) (paragraphs : List Para)
    (c : Chunk) (hc : c ∈ chunk_document size paragraphs)
    (hsize : size < wordCount c) : c.length ≤ 2 := by
  by_cases hnil : (chunkLoop size [] [] 0 paragraphs).isEmpty
  · simp only [chunk_document, hnil, if_true] at hc
    obtain ⟨-, -, hps⟩ := chunkLoop_eq_nil size paragraphs [] [] 0 (List.isEmpty_iff.mp hnil)
    subst hps
    rw [List.mem_singleton] at hc
    subst hc
    simp [wordCount] at hsize
  · simp only [chunk_document, hnil, if_false] at hc
    exact chunkLoop_oversized size paragraphs [] [] 0 (by simp [wordCount])
      (by simp) (by simp) c hc hsize

/-- Witness for C4's theorem: a single twelve-word paragraph exceeds the
target 10 and forms a one-paragraph chunk. -/
theorem chunk_document_oversized_spec_witness :
    [pTwelve] ∈ chunk_document 10 [pTwelve] ∧ 10 < wordCount [pTwelve]
    ∧ [pTwelve].length ≤ 2 :=
  ⟨by decide, by decide,
    chunk_document_oversized_spec 10 [pTwelve] [pTwelve] (by decide) (by decide)⟩

/-- C5: `retrieve_by_tag` never returns normally, but the error it
raises is a `TypeError` — the misspelled keyword argument
`filder_metadata` makes the `VectorStore.search` call fail before the
function's own `raise NotImplementedError` line can run — and
`TypeError` is not the "not implemented" error kind the claim and the
source's dead `raise` intend. -/
theorem retrieve_by_tag_raises_type_error (tag : String) (top_k : Option Nat)
    (self_top_k : Nat) (indexResults : List SearchResult) :
    retrieve_by_tag tag top_k self_top_k indexResults = .error .typeError
    ∧ PyErr.typeError ≠ PyErr.notImplementedError := by
  exact ⟨rfl, by decide⟩

/-- C6: for every run of the NoMa synthesis pipeline whose validated
initial state has `has_internet = false` (and, as the API layer builds
it, no `resources` key), the run succeeds, the `fetch_resources` node is
never executed, and the final state's `resources` field is explicitly
set to `None` (`some none`), not merely left unset (`none`). -/
theorem noma_offline_spec (o : NomaOracle) (st0 : NoMaState)
    (h1 : st0.interesting ≠ "") (h2 : st0.reminds_me ≠ "")
    (h3 : st0.similar_because ≠ "") (h4 : st0.different_because ≠ "")
    (h5 : st0.important_because ≠ "") (hres : st0.resources = none)
    (hnet : st0.has_internet = false) :
    ∃ st trace, runNoma o st0 = .ok (st, trace)
      ∧ "fetch_resources" ∉ trace
      ∧ st.resources = some none := by
  have hval : validate_responses st0 = .ok st0 := by
    simp [validate_responses, h1, h2, h3, h4, h5]
  refine ⟨format_final_output (merge_metadata
      (generate_topic_tags o (generate_title o (generate_note o st0)))),
    ["validate_responses", "generate_note", "generate_title",
      "generate_topic_tags", "merge_metadata", "format_output"], ?_, by decide, ?_⟩
  · have hroute : should_fetch_resources (merge_metadata
        (generate_topic_tags o (generate_title o (generate_note o st0))))
        = "format_output" := by
      simp [should_fetch_resources, merge_metadata, generate_topic_tags,
        generate_title, generate_note, hres, hnet]
    simp [runNoma, hval, hroute]
  · simp [format_final_output, merge_metadata, generate_topic_tags,
      generate_title, generate_note, hres]

/-- Sample generation outputs for the witness run. -/
def oraC : NomaOracle :=
  { note := "note text", title := "Title", tags := ["#t/tagx"], resources := [] }

/-- Sample offline initial state for the witness run. -/
def stC : NoMaState :=
  { interesting := "i1", reminds_me := "r1", similar_because := "s1",
    different_because := "d1", important_because := "p1", has_internet := false }

/-- Witness for C6's theorem on a concrete offline run. -/
theorem noma_offline_spec_witness :
    ∃ st trace, runNoma oraC stC = .ok (st, trace)
      ∧ "fetch_resources" ∉ trace
      ∧ st.resources = some none :=
  noma_offline_spec oraC stC (by decide) (by decide) (by decide) (by decide)
    (by decide) rfl rfl

/-- C7: when the score payload parses as a JSON array of the same length
as the candidate list, reranking succeeds and returns exactly the
candidates with their positional scores attached as `rerank_score`
(a permutation of the score-attached list, of unchanged length), sorted
descending by `rerank_score`, and stably so: for every score value, the
candidates carrying it appear in their original relative order. -/
theorem rerank_results_success_sorted_stable (results : List SearchResult)
    (scores : List Int) (h : scores.length = results.length) :
    ∃ out, rerank_results results (.arr scores) = .ok out
      ∧ out.length = results.length
      ∧ List.Perm out (attachScores results scores)
      ∧ List.Sorted rerankLE out
      ∧ ∀ s : Int, out.filter (fun x => x.rerank_score == some s)
          = (attachScores results scores).filter (fun x => x.rerank_score == some s) := by
  refine ⟨_, rfl, ?_, ?_, ?_, ?_⟩
  · simp [pySortByRerankScore, attachScores, List.length_insertionSort,
      List.length_zipWith, h]
  · exact List.perm_insertionSort _ _
  · exact List.sorted_insertionSort _ _
  · intro s
    exact filter_insertionSort_rerank s _

/-- Witness for C7's theorem: two candidates with equal scores keep
their original relative order. -/
theorem rerank_results_success_witness :
    ∃ out, rerank_results [rAlpha, rBeta] (.arr [7, 7]) = .ok out
      ∧ List.Perm out (attachScores [rAlpha, rBeta] [7, 7])
      ∧ List.Sorted rerankLE out := by
  obtain ⟨out, hout, -, hperm, hsort, -⟩ :=
    rerank_results_success_sorted_stable [rAlpha, rBeta] [7, 7] (by decide)
  exact ⟨out, hout, hperm, hsort⟩

/-- Counterexample to C8: the tag-retrieval mode — the only one whose
limit is supplied at the call — returns no sequence at all for the call
`retrieve_by_tag("opponent", top_k=3)`: it raises `TypeError`. -/
theorem retrieve_by_tag_no_sequence_counterexample :
    retrieve_by_tag "opponent" (some 3) 5 [] = .error .typeError :=
  rfl

/-- C8 (amended): the linking and opposition retrieval modes return
ordered sequences capped at the retriever's `top_k` fixed at
construction (here for `top_k ≥ 1`), not at a limit supplied with the
retrieval call; the tag mode accepts a per-call limit but always fails
without returning a sequence. -/
theorem retrieval_modes_cap_spec (search : Nat → List SearchResult)
    (exclude_path : String) (top_k : Nat) (hk : 1 ≤ top_k)
    (tagged general : List SearchResult) (payload : ScorePayload)
    (out : List SearchResult) :
    (retrieve_for_linking search exclude_path top_k).length ≤ top_k
    ∧ (retrieve_for_opposition tagged general payload top_k = .ok out →
        out.length ≤ top_k)
    ∧ (∀ tag tk d idx, ∃ e, retrieve_by_tag tag tk d idx = .error e) := by
  refine ⟨?_, ?_, ?_⟩
  · simp only [retrieve_for_linking]
    rw [linkLoop_length _ _ _ hk]
    omega
  · intro h
    simp only [retrieve_for_opposition] at h
    by_cases hm : mergeByPath (tagged ++ general) = []
    · rw [if_pos hm] at h
      have : out = [] := by
        simpa using (Except.ok.inj h).symm
      simp [this]
    · rw [if_neg hm] at h
      cases hp : rerank_results (mergeByPath (tagged ++ general)) payload with
      | error e =>
        rw [hp] at h
        simp [Except.map] at h
      | ok l =>
        rw [hp] at h
        simp only [Except.map, Except.ok.injEq] at h
        rw [← h]
        simp [Nat.min_le_left top_k l.length]
  · intro tag tk d idx
    exact ⟨.typeError, rfl⟩

/-- Witness for C8's theorem at limit 1. -/
theorem retrieval_modes_cap_spec_witness :
    (retrieve_for_linking searchStubA "x.md" 1).length ≤ 1 :=
  (retrieval_modes_cap_spec searchStubA "x.md" 1 (le_refl 1) [] []
    .malformed []).1

/-- Lookup fact used by C9: a search-result dict has no `snippet` key. -/
theorem searchResult_get_snippet (r : SearchResult) (dflt : PyVal) :
    r.get "snippet" dflt = dflt := by
  unfold SearchResult.get
  rw [if_neg (by decide), if_neg (by decide), if_neg (by decide), if_neg (by decide)]

/-- Lookup fact used by C9: a search-result dict has no `score` key. -/
theorem searchResult_get_score (r : SearchResult) (dflt : PyVal) :
    r.get "score" dflt = dflt := by
  unfold SearchResult.get
  rw [if_neg (by decide), if_neg (by decide), if_neg (by decide), if_neg (by decide)]

set_option maxRecDepth 4000 in
/-- C9: the vector store's search results carry their similarity under
the key `similarity_score` and have no `snippet` or `score` key, so for
every retrieval result list every suggested link built by
`NoteLinker.find_links` gets the defaults: score `0.0` and an empty
reason. -/
theorem find_links_defaulted_fields (results : List SearchResult) (max_links : Nat) :
    (∀ r : SearchResult, ∀ dflt : PyVal,
      r.get "snippet" dflt = dflt ∧ r.get "score" dflt = dflt
        ∧ r.get "similarity_score" dflt = .num r.similarity_score)
    ∧ ∀ link ∈ find_links results max_links,
        link.score = .num 0 ∧ link.reason = .str "" := by
  constructor
  · intro r dflt
    refine ⟨searchResult_get_snippet r dflt, searchResult_get_score r dflt, ?_⟩
    unfold SearchResult.get
    rw [if_neg (by decide), if_neg (by decide), if_pos rfl]
  · intro link hlink
    simp only [find_links, List.mem_map] at hlink
    obtain ⟨r, -, rfl⟩ := hlink
    refine ⟨searchResult_get_score r _, ?_⟩
    rw [searchResult_get_snippet r _]
    show pyStrSlice (PyVal.str "") MAX_CHARS_REASON = PyVal.str ""
    decide

/-- The suggested link built from `rAlpha`. -/
def linkAlpha : SuggestedLink :=
  { path := PyVal.str "a.md", title := PyVal.str "A",
    reason := PyVal.str "", score := PyVal.num 0 }

set_option maxRecDepth 4000 in
/-- Witness for C9's theorem on a concrete result. -/
theorem find_links_defaulted_fields_witness :
    ∃ link, link ∈ find_links [rAlpha] 5
      ∧ link.score = .num 0 ∧ link.reason = .str "" := by
  have hm : linkAlpha ∈ find_links [rAlpha] 5 := by decide
  exact ⟨_, hm, (find_links_defaulted_fields [rAlpha] 5).2 _ hm⟩

/-- C10: after `analyze_arguments` runs on the state produced by the
evidence-retrieval node, `detailed_analysis` is always set (never the
absent marker): when the formatted evidence is empty it equals the fixed
no-counter-evidence message for every possible generation reply (the
capability is not consulted), and otherwise it equals the generation
capability's response. Consequently `summarize_opposition` substitutes
"No analysis available" — that is, produces that summary regardless of
its own model reply — exactly when evidence was non-empty and the
generation capability produced an empty analysis text. -/
theorem opposition_analysis_spec (results : List SearchResult)
    (st : OpponentState) (analysisResponse : String) :
    ∃ st2, analyze_arguments analysisResponse (retrieve_counter_evidence results st)
        = .ok st2
      ∧ st2.detailed_analysis ≠ none
      ∧ (results.take st.max_evidence = [] →
          ∀ r, analyze_arguments r (retrieve_counter_evidence results st)
            = .ok { retrieve_counter_evidence results st with
                detailed_analysis := some noCounterEvidenceMessage })
      ∧ (results.take st.max_evidence ≠ [] →
          st2.detailed_analysis = some analysisResponse)
      ∧ ((∀ resp, (summarize_opposition resp st2).summary
            = some "No analysis available")
          ↔ (results.take st.max_evidence ≠ [] ∧ analysisResponse = "")) := by
  cases htake : results.take st.max_evidence with
  | nil =>
    refine ⟨{ retrieve_counter_evidence results st with
        detailed_analysis := some noCounterEvidenceMessage }, ?_, by simp, ?_, ?_, ?_⟩
    · simp [analyze_arguments, retrieve_counter_evidence, htake, counterEvidenceText]
    · intro _ r
      simp [analyze_arguments, retrieve_counter_evidence, htake, counterEvidenceText]
    · intro h
      exact absurd rfl h
    · constructor
      · intro hall
        have h0 := hall ""
        have hmsg : noCounterEvidenceMessage ≠ "" := by decide
        simp [summarize_opposition, hmsg] at h0
      · rintro ⟨hne, -⟩
        exact absurd rfl hne
  | cons a as =>
    have htext := counterEvidenceText_cons_ne (toEvidence a) (as.map toEvidence) 1
    refine ⟨{ retrieve_counter_evidence results st with
        detailed_analysis := some analysisResponse }, ?_, by simp, ?_, ?_, ?_⟩
    · simp [analyze_arguments, retrieve_counter_evidence, htake, htext]
    · intro h
      simp at h
    · intro _
      rfl
    · by_cases hA : analysisResponse = ""
      · subst hA
        constructor
        · intro _
          exact ⟨by simp, rfl⟩
        · intro _ resp
          simp [summarize_opposition]
      · constructor
        · intro hall
          have h0 := hall ""
          simp [summarize_opposition, hA] at h0
        · rintro ⟨-, hA'⟩
          exact absurd hA' hA

/-- Sample opposition state for the witness run. -/
def stOpp : OpponentState := { note_content := "claim", max_evidence := 5 }

/-- Witness for C10's theorem on a run with no retrieved evidence. -/
theorem opposition_analysis_spec_witness :
    ∃ st2, analyze_arguments "A" (retrieve_counter_evidence [] stOpp) = .ok st2
      ∧ st2.detailed_analysis ≠ none := by
  obtain ⟨st2, h1, h2, -, -, -⟩ := opposition_analysis_spec [] stOpp "A"
  exact ⟨st2, h1, h2⟩

end OpponentFramework
